import Mathlib

/-!
Shallow embedding of the Reportanalysis pipeline (data ingestion, synthesis,
analysis stages and the MCP client stub), with proofs of the specification
claims about it.

Conventions of the embedding:
* pandas DataFrames become `Table`: a list of named, typed columns of cells.
* Python floats become `ℚ`; a float NaN (and a missing cell / `None`) is
  represented explicitly, as `Val.missing` in tables and `Option.none` in
  computed statistics.  Python comparisons against NaN are false, which the
  `Option`-level comparison helpers mirror.
* Quantities whose exact value is irrational (standard deviation, skewness,
  Pearson r) are stored through a strictly monotone, sign- and
  definedness-preserving encoding (their square, or sign times square), noted
  at each field; every threshold test in the source is translated through the
  same encoding, so branch behaviour is preserved exactly.
* Python exceptions become `Except`; a `try/except` becomes a `match`.
-/

namespace ReportAnalysis

/-- A cell of a table: a numeric value, a text value, or a missing cell
(pandas `NaN`/`None`/`NaT`). -/
inductive Val where
  | num (q : ℚ)
  | str (s : String)
  | missing
deriving DecidableEq, Repr

/-- The pandas dtype of a column, as the three kinds the pipeline branches on
(`select_dtypes` of `np.number`, of `object`/`category`, of `datetime64`). -/
inductive ColType where
  | numeric
  | text
  | datetime
deriving DecidableEq, Repr

/-- A named, typed column of cells. -/
structure Column where
  name : String
  dtype : ColType
  cells : List Val
deriving DecidableEq, Repr

/-- A DataFrame: an ordered list of columns. -/
structure Table where
  cols : List Column
deriving DecidableEq, Repr

/-- The numeric content of a cell, `none` for anything else. -/
def cellNum : Val → Option ℚ
  | .num q => some q
  | _ => none

/-- `series.dropna()` for a numeric column: its non-missing numeric values. -/
def Column.nums (c : Column) : List ℚ :=
  c.cells.filterMap cellNum

/-- `len(data)`: the row count (length of the first column; all columns of a
well-formed table share it). -/
def Table.nrows (t : Table) : Nat :=
  match t.cols with
  | [] => 0
  | c :: _ => c.cells.length

/-- `data.select_dtypes(include=[np.number]).columns` as the columns
themselves. -/
def Table.numericCols (t : Table) : List Column :=
  t.cols.filter (fun c => decide (c.dtype = ColType.numeric))

/-- `data.select_dtypes(include=['datetime64']).columns` as the columns
themselves. -/
def Table.datetimeCols (t : Table) : List Column :=
  t.cols.filter (fun c => decide (c.dtype = ColType.datetime))

/-- `len(data) * len(data.columns)`: total cell count. -/
def Table.totalCells (t : Table) : Nat :=
  t.nrows * t.cols.length

/-- `series.isna().sum()` for one column. -/
def Column.missingCount (c : Column) : Nat :=
  c.cells.countP (fun v => decide (v = Val.missing))

/-- `data.isna().sum().sum()`: missing cells of the whole table. -/
def Table.missingCells (t : Table) : Nat :=
  (t.cols.map Column.missingCount).sum

/-- Row `i` of the table (cells of each column at index `i`). -/
def Table.row (t : Table) (i : Nat) : List Val :=
  t.cols.map (fun c => c.cells.getD i Val.missing)

/-- The rows of the table, in order. -/
def Table.rows (t : Table) : List (List Val) :=
  (List.range t.nrows).map t.row

/-! ### Data ingestion stage: `DataIngestionStage._validate_data`

`data.empty` is true when either axis has length zero; `min_rows` is
`config.get('min_rows', 1)`.  A raised `ValueError` is an `Except.error`. -/

/-- `DataIngestionStage._validate_data`, over the shape of the loaded frame
and the configured minimum row count. -/
def validate_data (rows cols min_rows : Nat) : Except String Unit :=
  if rows = 0 ∨ cols = 0 then
    Except.error "Loaded data is empty"
  else if rows < min_rows then
    Except.error "Data has fewer rows than the minimum required"
  else
    Except.ok ()

/-! ### Synthesis stage: `SynthesisStage._assess_data_quality` -/

/-- The `data_quality` dict produced by `SynthesisStage._assess_data_quality`.
`completeness` is `none` exactly when the float value is NaN (0/0 on an
empty frame). -/
structure DataQuality where
  completeness : Option ℚ
  missing_values : Nat
  duplicate_rows : Nat
  total_cells : Nat
deriving DecidableEq, Repr

/-- The marks of `data.duplicated()` (default `keep='first'`): a row is marked
when an equal row was already seen. -/
def duplicatedMarks : List (List Val) → List (List Val) → List Bool
  | _, [] => []
  | seen, r :: rs =>
      seen.any (fun x => decide (x = r)) :: duplicatedMarks (r :: seen) rs

/-- `int(data.duplicated().sum())`. -/
def duplicateRowCount (t : Table) : Nat :=
  (duplicatedMarks [] t.rows).countP id

/-- `SynthesisStage._assess_data_quality`. -/
def assess_data_quality (t : Table) : DataQuality :=
  let total := t.totalCells
  let miss := t.missingCells
  { completeness :=
      if total = 0 then none
      else some (((total : ℚ) - (miss : ℚ)) / (total : ℚ) * 100),
    missing_values := miss,
    duplicate_rows := duplicateRowCount t,
    total_cells := total }

/-! ### Quantiles (`Series.quantile`, linear interpolation)

`series.quantile(q)` sorts the values and linearly interpolates at the
fractional position `h = q * (n - 1)`.  The position is nonnegative for the
`q ∈ {1/4, 1/2, 3/4}` used by the pipeline, so its floor is computed by
natural division. -/

/-- Floor of a nonnegative rational, as a natural number. -/
def ratFloorNat (h : ℚ) : Nat :=
  h.num.toNat / h.den

/-- Sort a list of rationals ascending (the sort inside `quantile`). -/
def sortQ (l : List ℚ) : List ℚ :=
  l.insertionSort (· ≤ ·)

/-- Linear interpolation into a sorted list `s` at fractional position `h`:
`s[⌊h⌋] + (h - ⌊h⌋) * (s[⌈h⌉] - s[⌊h⌋])`, the upper index clamped to the
last position. -/
def interpolate (s : List ℚ) (h : ℚ) : ℚ :=
  let i : Nat := ratFloorNat h
  let j : Nat := min (i + 1) (s.length - 1)
  let lo := s.getD i 0
  let hi := s.getD j 0
  lo + (h - (ratFloorNat h : ℚ)) * (hi - lo)

/-- `series.quantile(q)`; `none` is the NaN returned on an empty series. -/
def quantile (l : List ℚ) (q : ℚ) : Option ℚ :=
  if l.length = 0 then none
  else some (interpolate (sortQ l) (q * ((l.length : ℚ) - 1)))

/-! ### Analysis stage: `AnalysisStage._detect_outliers` -/

/-- One entry of the `outliers` dict of `AnalysisStage._detect_outliers`.
`percentage` and the bounds are `none` exactly when the float is NaN
(quantiles of an empty series, and `0 / 0` for the percentage). -/
structure OutlierInfo where
  count : Nat
  percentage : Option ℚ
  lower : Option ℚ
  upper : Option ℚ
deriving DecidableEq, Repr

/-- The body of the per-column loop of `AnalysisStage._detect_outliers`. -/
def detectOutliersCol (c : Column) : OutlierInfo :=
  let vals := c.nums
  match quantile vals (1/4), quantile vals (3/4) with
  | some q1, some q3 =>
      let iqr := q3 - q1
      let lower_bound := q1 - 3/2 * iqr
      let upper_bound := q3 + 3/2 * iqr
      let outlier_count :=
        vals.countP (fun x => decide (x < lower_bound) || decide (upper_bound < x))
      { count := outlier_count,
        percentage :=
          if vals.length = 0 then none
          else some ((outlier_count : ℚ) / (vals.length : ℚ) * 100),
        lower := some lower_bound,
        upper := some upper_bound }
  | _, _ =>
      -- the quantiles of an empty series are NaN: the comparisons are all
      -- false (count 0) and the percentage is NaN (0 / 0)
      { count := 0, percentage := none, lower := none, upper := none }

/-- `AnalysisStage._detect_outliers`: one entry per numeric column. -/
def detect_outliers (t : Table) : List (String × OutlierInfo) :=
  t.numericCols.map (fun c => (c.name, detectOutliersCol c))

/-! ### Analysis stage: `AnalysisStage._statistical_analysis`

Per numeric column, descriptive statistics over the non-missing values.
Every float that a pandas/scipy call turns into NaN (empty column, zero
variance with `ddof=1`, ...) is `none` here; no call in the loop raises.
Two fields are stored through a monotone encoding because their exact value
is irrational:
* `stdSq` holds the square of `col_data.std()`, i.e. the sample variance;
* `skewSgnSq` holds `sign(g1) * g1 ^ 2` for the skewness `g1`.
The encodings preserve definedness, sign and order, and no claim inspects
the raw magnitude of either statistic. -/

/-- Sum of a list of rationals. -/
def qsum (l : List ℚ) : ℚ := l.foldr (· + ·) 0

/-- Mean of a list (`series.mean()` on non-missing values); NaN on empty. -/
def qmean (l : List ℚ) : Option ℚ :=
  if l.length = 0 then none else some (qsum l / (l.length : ℚ))

/-- Central moment sum `Σ (x - mean)^k` (raw, not divided by `n`). -/
def centralSum (l : List ℚ) (k : Nat) : ℚ :=
  match qmean l with
  | none => 0
  | some m => qsum (l.map (fun x => (x - m) ^ k))

/-- `series.mode()[0] if len(...) > 0 else None`: pandas sorts the modal
values ascending, so this is the least value of maximal multiplicity. -/
def modeFirst (l : List ℚ) : Option ℚ :=
  let freq : ℚ → Nat := fun x => l.countP (fun y => decide (y = x))
  let maxFreq := (l.map freq).foldr max 0
  ((sortQ l).filter (fun x => decide (freq x = maxFreq))).head?

/-- The `descriptive_stats` entry of one numeric column. -/
structure DescStats where
  count : Nat
  mean : Option ℚ
  median : Option ℚ
  mode : Option ℚ
  /-- square of `float(col_data.std())` (sample variance, `ddof=1`) -/
  stdSq : Option ℚ
  variance : Option ℚ
  /-- `sign(g1) * g1 ^ 2` for the Fisher-Pearson skewness `g1` of
  `stats.skew` (bias=True): `g1 ^ 2 = S3 ^ 2 * n / S2 ^ 3` over the raw
  central sums; NaN (none) on an empty or zero-variance column. -/
  skewSgnSq : Option ℚ
  /-- `stats.kurtosis` (Fisher, bias=True): `S4 * n / S2 ^ 2 - 3`;
  NaN (none) on an empty or zero-variance column. -/
  kurtosis : Option ℚ
  q1 : Option ℚ
  q2 : Option ℚ
  q3 : Option ℚ
deriving DecidableEq, Repr

/-- The body of the per-column loop of `AnalysisStage._statistical_analysis`. -/
def descStatsOf (l : List ℚ) : DescStats :=
  let n := l.length
  let s2 := centralSum l 2
  let s3 := centralSum l 3
  let s4 := centralSum l 4
  { count := n,
    mean := qmean l,
    median := quantile l (1/2),
    mode := modeFirst l,
    stdSq := if n ≤ 1 then none else some (s2 / ((n : ℚ) - 1)),
    variance := if n ≤ 1 then none else some (s2 / ((n : ℚ) - 1)),
    skewSgnSq :=
      if n = 0 then none
      else if s2 = 0 then none
      else some ((if s3 < 0 then -1 else 1) * s3 ^ 2 * (n : ℚ) / s2 ^ 3),
    kurtosis :=
      if n = 0 then none
      else if s2 = 0 then none
      else some (s4 * (n : ℚ) / s2 ^ 2 - 3),
    q1 := quantile l (1/4),
    q2 := quantile l (1/2),
    q3 := quantile l (3/4) }

/-- `AnalysisStage._statistical_analysis`: the `descriptive_stats` dict, one
entry per numeric column, keyed by column name. -/
def statistical_analysis (t : Table) : List (String × DescStats) :=
  t.numericCols.map (fun c => (c.name, descStatsOf c.nums))

/-! ### Analysis stage: `AnalysisStage._trend_analysis`

`stats.linregress(x, values)` with `x = arange(len(values))`:
`slope = Sxy / Sxx` and `r = Sxy / sqrt(Sxx * Syy)` (with `r = 0` when
`Sxx` or `Syy` is zero), over the centered sums of squares.  `r` itself is
irrational, so an entry stores `r ^ 2` (exactly the `r_squared` float of the
source); the source's test `abs(r_value) > c` on `0 ≤ c` is equivalent to
`r ^ 2 > c ^ 2`, which is how `strength` is computed here. -/

/-- The sums `(Sxx, Syy, Sxy)` of `stats.linregress` for `x = 0, ..., n-1`
against `ys`. -/
def regressSums (ys : List ℚ) : ℚ × ℚ × ℚ :=
  let n := ys.length
  let xs : List ℚ := (List.range n).map (fun i => (i : ℚ))
  let mx := qsum xs / (n : ℚ)
  let my := qsum ys / (n : ℚ)
  (qsum (xs.map (fun x => (x - mx) ^ 2)),
   qsum (ys.map (fun y => (y - my) ^ 2)),
   qsum ((List.zip xs ys).map (fun p => (p.1 - mx) * (p.2 - my))))

/-- One entry of `trends['temporal_trends']`.  `rSquared` is the exact value
of the `r_squared` float. -/
structure TrendEntry where
  column : String
  slope : ℚ
  rSquared : ℚ
  direction : String
  strength : String
deriving DecidableEq, Repr

/-- The entry built for one numeric column inside
`AnalysisStage._trend_analysis` (the `len(values) > 1` branch). -/
def mkTrendEntry (name : String) (ys : List ℚ) : TrendEntry :=
  let s := regressSums ys
  let slope := s.2.2 / s.1
  let rsq := if s.1 = 0 ∨ s.2.1 = 0 then 0 else s.2.2 ^ 2 / (s.1 * s.2.1)
  { column := name,
    slope := slope,
    rSquared := rsq,
    direction := if 0 < slope then "increasing" else "decreasing",
    -- abs(r) > 0.7 iff r^2 > 0.49;  abs(r) > 0.4 iff r^2 > 0.16
    strength :=
      if 49/100 < rsq then "strong"
      else if 16/100 < rsq then "moderate"
      else "weak" }

/-- The date cell of row `i` of column `dc`, as the sort key of
`data.sort_values(date_col)` (`none` is NaT, which pandas places last). -/
def dateKey (dc : Column) (i : Nat) : Option ℚ :=
  cellNum (dc.cells.getD i Val.missing)

/-- Ordering of `sort_values`: dates ascending, missing dates last. -/
def keyLe : Option ℚ → Option ℚ → Bool
  | some a, some b => decide (a ≤ b)
  | some _, none => true
  | none, some _ => false
  | none, none => true

/-- The row order produced by `data.sort_values(date_col)`, as a permutation
of the row indices. -/
def sortedRowIdx (dc : Column) (n : Nat) : List Nat :=
  (List.range n).insertionSort (fun i j => keyLe (dateKey dc i) (dateKey dc j) = true)

/-- `AnalysisStage._trend_analysis`: the `temporal_trends` entries, for the
first three numeric columns, when a datetime column exists
(`if len(date_columns) > 0 and len(numeric_cols) > 0`); a column with
fewer than two non-missing values contributes no entry. -/
def trend_analysis (t : Table) : List TrendEntry :=
  if 0 < t.datetimeCols.length ∧ 0 < t.numericCols.length then
    let dc := t.datetimeCols.headD ⟨"", ColType.datetime, []⟩
    (t.numericCols.take 3).filterMap (fun c =>
      let values :=
        ((sortedRowIdx dc t.nrows).map (fun i => c.cells.getD i Val.missing)).filterMap cellNum
      if 1 < values.length then some (mkTrendEntry c.name values) else none)
  else []

/-! ### Analysis stage: `AnalysisStage._correlation_analysis`

`numeric_data.corr()` computes pairwise Pearson correlations over the rows
where both columns are non-missing; a zero-variance pair gives NaN.  The
exact `r` is irrational, so an entry stores `sign(r) * r ^ 2`: a strictly
monotone, sign-preserving encoding under which the source's
`abs(corr_value) > 0.7` becomes `abs(enc) > 0.49` and `corr_value > 0`
becomes `enc > 0`. -/

/-- The encoded Pearson correlation `sign(r) * r ^ 2` of two columns over
their pairwise complete observations; `none` is NaN. -/
def pairCorrEnc (c1 c2 : Column) : Option ℚ :=
  let pairs := (List.zip c1.cells c2.cells).filterMap (fun p =>
    match cellNum p.1, cellNum p.2 with
    | some a, some b => some (a, b)
    | _, _ => none)
  let n := pairs.length
  if n = 0 then none
  else
    let xs := pairs.map Prod.fst
    let ys := pairs.map Prod.snd
    let mx := qsum xs / (n : ℚ)
    let my := qsum ys / (n : ℚ)
    let sxx := qsum (xs.map (fun x => (x - mx) ^ 2))
    let syy := qsum (ys.map (fun y => (y - my) ^ 2))
    let sxy := qsum ((List.zip xs ys).map (fun p => (p.1 - mx) * (p.2 - my)))
    if sxx = 0 ∨ syy = 0 then none
    else some ((if sxy < 0 then -1 else 1) * sxy ^ 2 / (sxx * syy))

/-- One entry of `strong_correlations`;  `correlation` is the encoded `r`. -/
structure StrongCorr where
  variable1 : String
  variable2 : String
  correlation : Option ℚ
  strength : String
deriving DecidableEq, Repr

/-- The result of `AnalysisStage._correlation_analysis`: the early return
uses key `'correlations'` and the main path key `'correlation_matrix'` for
the mapping; both are this `matrix` field. -/
structure CorrelationResult where
  matrix : List (String × List (String × Option ℚ))
  strong_correlations : List StrongCorr
deriving DecidableEq, Repr

/-- The pairs `(i, j)` with `i < j` of the doubly nested loop that collects
strong correlations (diagonal excluded). -/
def upperPairs : List Column → List (Column × Column)
  | [] => []
  | c :: rest => rest.map (fun d => (c, d)) ++ upperPairs rest

/-- `abs(corr_value) > bound` through the encoding (false on NaN, as a float
comparison against NaN is false). -/
def absEncGt (v : Option ℚ) (bound : ℚ) : Bool :=
  match v with
  | some x => decide (bound < |x|)
  | none => false

/-- `corr_value > 0` through the encoding (false on NaN). -/
def encPos (v : Option ℚ) : Bool :=
  match v with
  | some x => decide (0 < x)
  | none => false

/-- `AnalysisStage._correlation_analysis`. -/
def correlation_analysis (t : Table) : CorrelationResult :=
  let numeric := t.numericCols
  if numeric.length < 2 then
    { matrix := [], strong_correlations := [] }
  else
    { matrix :=
        numeric.map (fun c1 => (c1.name, numeric.map (fun c2 => (c2.name, pairCorrEnc c1 c2)))),
      strong_correlations :=
        (upperPairs numeric).filterMap (fun p =>
          let v := pairCorrEnc p.1 p.2
          -- abs(r) > 0.7 iff abs(sign(r) * r^2) > 0.49
          if absEncGt v (49/100) then
            some { variable1 := p.1.name, variable2 := p.2.name, correlation := v,
                   strength := if encPos v then "strong positive" else "strong negative" }
          else none) }

/-! ### MCP collaborator

The stages receive an optional `mcp_client` object and call
`is_connected()`, `generate_insights(...)` and `analyze_data(...)` on it.
`MCP` models an arbitrary collaborator: each call either returns a dict
(`Except.ok`) or raises (`Except.error`).  `MCPClientState`/`mcpClientInit`
model the concrete `MCPClient` class the orchestrator constructs. -/

/-- A value of the heterogeneous dicts the MCP layer returns. -/
inductive AIVal where
  | s (v : String)
  | f (v : ℚ)
  | l (v : List String)
deriving DecidableEq, Repr

/-- A dict returned by an MCP call; `[]` is the empty dict `{}`. -/
abbrev AIDict := List (String × AIVal)

/-- An arbitrary collaborator passed to the stages: its reported
connectivity and the behaviour of each call (return a dict, or raise). -/
structure MCP where
  connected : Bool
  insightsResult : Except String AIDict
  analyzeResult : Except String AIDict
deriving Repr

/-- The fields of an `MCPClient` instance. -/
structure MCPClientState where
  connected : Bool
  server_url : String
  enabled : Bool
deriving DecidableEq, Repr

/-- The constructor configuration: `config.get('server_url', '')` and
`config.get('enabled', False)`. -/
structure MCPConfig where
  server_url : Option String
  enabled : Option Bool
deriving DecidableEq, Repr

/-- `MCPClient._connect`: unconditionally leaves `connected = False`
(`self.connected = False  # Set to False by default since no real server`). -/
def mcpConnect (s : MCPClientState) : MCPClientState :=
  { s with connected := false }

/-- `MCPClient.__init__`: start with `connected = False`, read the config
fields, and call `_connect` when enabled with a truthy (non-empty) URL. -/
def mcpClientInit (cfg : MCPConfig) : MCPClientState :=
  let s : MCPClientState :=
    { connected := false,
      server_url := cfg.server_url.getD "",
      enabled := cfg.enabled.getD false }
  if s.enabled && !(s.server_url == "") then mcpConnect s else s

/-- `MCPClient.is_connected`. -/
def is_connected (s : MCPClientState) : Bool :=
  s.connected

/-- The canned dict of `MCPClient.generate_insights` (reached only when
connected). -/
def cannedInsights : AIDict :=
  [("summary", AIVal.s "AI-generated insights would appear here"),
   ("patterns", AIVal.l []),
   ("anomalies", AIVal.l [])]

/-- The canned dict of `MCPClient.analyze_data` (reached only when
connected). -/
def cannedAnalysis : AIDict :=
  [("insights", AIVal.s "AI-powered analysis would appear here"),
   ("confidence", AIVal.f 0),
   ("recommendations", AIVal.l [])]

/-- `MCPClient.generate_insights`: `{}` when not connected, else the canned
dict; its own try/except means it never raises. -/
def mcpGenerateInsights (s : MCPClientState) : AIDict :=
  if is_connected s then cannedInsights else []

/-- `MCPClient.analyze_data`: `{}` when not connected, else the canned dict;
never raises. -/
def mcpAnalyzeData (s : MCPClientState) : AIDict :=
  if is_connected s then cannedAnalysis else []

/-- An `MCPClient` instance viewed as a collaborator. -/
def realMCP (s : MCPClientState) : MCP :=
  { connected := is_connected s,
    insightsResult := Except.ok (mcpGenerateInsights s),
    analyzeResult := Except.ok (mcpAnalyzeData s) }

/-! ### Synthesis stage: `SynthesisStage.execute` -/

/-- The parts of the synthesized dict the claims are about: `raw_data`,
`data_quality`, and the `ai_insights` key (`none` when the key is absent,
i.e. when no collaborator reports itself connected). -/
structure SynthResult where
  raw_data : Table
  data_quality : DataQuality
  ai_insights : Option AIDict
deriving DecidableEq, Repr

/-- `SynthesisStage._generate_ai_insights`: the try/except around
`generate_insights` substitutes `{}` for a raised exception. -/
def generate_ai_insights (m : MCP) : AIDict :=
  match m.insightsResult with
  | Except.ok r => r
  | Except.error _ => []

/-- `SynthesisStage.execute`: the `ai_insights` key is set only when a
client is present and `is_connected()`. -/
def synthExecute (client : Option MCP) (t : Table) : SynthResult :=
  { raw_data := t,
    data_quality := assess_data_quality t,
    ai_insights :=
      match client with
      | some m => if m.connected then some (generate_ai_insights m) else none
      | none => none }

/-! ### Analysis stage: `AnalysisStage.execute` and
`AnalysisStage._generate_recommendations` -/

/-- The parts of the analysis results dict the claims are about. -/
structure AnalysisResults where
  statistical : List (String × DescStats)
  trend : List TrendEntry
  correlation : CorrelationResult
  outlier_detection : List (String × OutlierInfo)
  recommendations : List String
  ai_analysis : Option AIDict
deriving DecidableEq, Repr

/-- Float comparison `v < bound` where `v` may be NaN (`none`): false on
NaN. -/
def optLt (v : Option ℚ) (bound : ℚ) : Bool :=
  match v with
  | some x => decide (x < bound)
  | none => false

/-- Float comparison `v > bound` where `v` may be NaN (`none`): false on
NaN. -/
def optGt (v : Option ℚ) (bound : ℚ) : Bool :=
  match v with
  | some x => decide (bound < x)
  | none => false

/-- The recommendation emitted on low completeness. -/
def missingDataRec : String :=
  "Consider addressing missing data to improve analysis accuracy"

/-- `[col for col, info in outliers.items() if info['percentage'] > 5]`. -/
def highOutlierCols (outliers : List (String × OutlierInfo)) : List String :=
  (outliers.filter (fun p => optGt p.2.percentage 5)).map Prod.fst

/-- `AnalysisStage._generate_recommendations`, over the data-quality
completeness and the outlier detection results it reads from
`analysis_results`. -/
def generate_recommendations (completeness : Option ℚ)
    (outliers : List (String × OutlierInfo)) : List String :=
  (if optLt completeness 90 then [missingDataRec] else [])
  ++ (if (highOutlierCols outliers).isEmpty then []
      else ["Review outliers in: "
              ++ String.intercalate ", " ((highOutlierCols outliers).take 3)])

/-- `AnalysisStage._ai_powered_analysis`: the try/except around
`analyze_data` substitutes `{}` for a raised exception. -/
def ai_powered_analysis (m : MCP) : AIDict :=
  match m.analyzeResult with
  | Except.ok r => r
  | Except.error _ => []

/-- `AnalysisStage.execute`: `recommendations` starts `[]` and, like the
`ai_analysis` key, is filled only when a client is present and
`is_connected()`. -/
def analysisExecute (client : Option MCP) (synthesized : SynthResult) :
    AnalysisResults :=
  let data := synthesized.raw_data
  let base : AnalysisResults :=
    { statistical := statistical_analysis data,
      trend := trend_analysis data,
      correlation := correlation_analysis data,
      outlier_detection := detect_outliers data,
      recommendations := [],
      ai_analysis := none }
  match client with
  | some m =>
      if m.connected then
        { base with
          ai_analysis := some (ai_powered_analysis m),
          recommendations :=
            generate_recommendations synthesized.data_quality.completeness
              base.outlier_detection }
      else base
  | none => base

/-- The synthesis stage as the orchestrator runs it: with the `MCPClient`
built by `ReportPipeline.__init__` from the `mcp` config section. -/
def pipelineSynth (cfg : MCPConfig) (t : Table) : SynthResult :=
  synthExecute (some (realMCP (mcpClientInit cfg))) t

/-- The analysis stage as the orchestrator runs it, on the synthesized data
of the same pipeline. -/
def pipelineAnalysis (cfg : MCPConfig) (t : Table) : AnalysisResults :=
  analysisExecute (some (realMCP (mcpClientInit cfg))) (pipelineSynth cfg t)

/-! ## Example inputs used by witnesses and counterexamples -/

/-- A 2-row, 1-column table with no missing cells. -/
def exFull : Table :=
  ⟨[⟨"a", ColType.numeric, [Val.num 1, Val.num 2]⟩]⟩

/-- A 10-row, 1-column table with 9 missing cells: completeness 10%. -/
def exLowComp : Table :=
  ⟨[⟨"a", ColType.numeric,
     [Val.num 1, Val.missing, Val.missing, Val.missing, Val.missing,
      Val.missing, Val.missing, Val.missing, Val.missing, Val.missing]⟩]⟩

/-- The spec's duplicate example `[[1,2],[1,2],[3,4]]`, stored by column. -/
def exDup : Table :=
  ⟨[⟨"a", ColType.numeric, [Val.num 1, Val.num 1, Val.num 3]⟩,
    ⟨"b", ColType.numeric, [Val.num 2, Val.num 2, Val.num 4]⟩]⟩

/-- A table with exactly one numeric column. -/
def exOneNum : Table :=
  ⟨[⟨"x", ColType.numeric, [Val.num 1, Val.num 2, Val.num 3]⟩,
    ⟨"label", ColType.text, [Val.str "u", Val.str "v", Val.str "w"]⟩]⟩

/-- A table with an all-missing numeric column next to a normal one. -/
def exMissingCol : Table :=
  ⟨[⟨"empty_col", ColType.numeric, [Val.missing, Val.missing, Val.missing]⟩,
    ⟨"good", ColType.numeric, [Val.num 1, Val.num 2, Val.num 3]⟩]⟩

/-- A table with a datetime column and one strictly increasing numeric
column. -/
def exTrend : Table :=
  ⟨[⟨"date", ColType.datetime, [Val.num 1, Val.num 2, Val.num 3]⟩,
    ⟨"sales", ColType.numeric, [Val.num 1, Val.num 2, Val.num 3]⟩]⟩

/-- The trend entry computed for `exTrend`. -/
def trendEx : TrendEntry := mkTrendEntry "sales" [1, 2, 3]

/-- A numeric column with four values, for the outlier-bound witness. -/
def exC9 : Column := ⟨"v", ColType.numeric, [Val.num 1, Val.num 2, Val.num 3, Val.num 4]⟩

/-- A table holding `exC9`. -/
def exT9 : Table := ⟨[exC9]⟩

/-- A collaborator that reports itself connected and raises on every call. -/
def mcpRaising : MCP :=
  ⟨true, Except.error "boom", Except.error "boom"⟩

/-- A collaborator that reports itself connected and returns normally. -/
def mcpConnectedOk : MCP :=
  ⟨true, Except.ok [], Except.ok []⟩

/-- The default MCP configuration (section absent). -/
def cfgNone : MCPConfig := ⟨none, none⟩

/-! ## Helper lemmas -/

/-- For a nonnegative rational, `ratFloorNat` is the floor. -/
theorem ratFloorNat_eq_floor (h : ℚ) (h0 : 0 ≤ h) : (ratFloorNat h : ℤ) = ⌊h⌋ := by
  have hnum : 0 ≤ h.num := Rat.num_nonneg.mpr h0
  calc ((h.num.toNat / h.den : ℕ) : ℤ)
      = (h.num.toNat : ℤ) / (h.den : ℤ) := Int.ofNat_div _ _
    _ = h.num / h.den := by rw [Int.toNat_of_nonneg hnum]
    _ = ⌊h⌋ := Rat.floor_def.symm

/-- `ratFloorNat h ≤ h` for nonnegative `h`. -/
theorem ratFloorNat_le (h : ℚ) (h0 : 0 ≤ h) : (ratFloorNat h : ℚ) ≤ h := by
  have := Int.floor_le h
  rw [← ratFloorNat_eq_floor h h0] at this
  exact_mod_cast this

/-- `h < ratFloorNat h + 1` for nonnegative `h`. -/
theorem lt_ratFloorNat_add_one (h : ℚ) (h0 : 0 ≤ h) : h < (ratFloorNat h : ℚ) + 1 := by
  have := Int.lt_floor_add_one h
  rw [← ratFloorNat_eq_floor h h0] at this
  exact_mod_cast this

/-- If `h₂` exceeds `h₁` by at least one, the floors are apart by one. -/
theorem ratFloorNat_add_one_le (h₁ h₂ : ℚ) (h0 : 0 ≤ h₁) (hle : h₁ + 1 ≤ h₂) :
    ratFloorNat h₁ + 1 ≤ ratFloorNat h₂ := by
  have h0' : (0:ℚ) ≤ h₂ := le_trans (by linarith) hle
  have hz : (⌊h₁⌋ + 1 : ℤ) ≤ ⌊h₂⌋ := by
    rw [Int.le_floor]
    push_cast
    have := Int.floor_le h₁
    linarith
  rw [← ratFloorNat_eq_floor h₁ h0, ← ratFloorNat_eq_floor h₂ h0'] at hz
  exact_mod_cast hz

/-- `ratFloorNat h ≤ m` when `h ≤ m`. -/
theorem ratFloorNat_le_of_le (h : ℚ) (m : Nat) (h0 : 0 ≤ h) (hm : h ≤ (m : ℚ)) :
    ratFloorNat h ≤ m := by
  have hz : ⌊h⌋ ≤ (m : ℤ) := by
    rw [show ((m : ℤ)) = ⌊(m : ℚ)⌋ by exact_mod_cast (Int.floor_natCast m).symm]
    exact Int.floor_le_floor hm
  rw [← ratFloorNat_eq_floor h h0] at hz
  exact_mod_cast hz

/-- In a sorted list, entries are monotone in the index. -/
theorem sorted_getD_mono (s : List ℚ) (hs : s.Sorted (· ≤ ·)) {i j : Nat}
    (hij : i ≤ j) (hj : j < s.length) : s.getD i 0 ≤ s.getD j 0 := by
  have hi : i < s.length := lt_of_le_of_lt hij hj
  rw [List.getD_eq_get s 0 hi, List.getD_eq_get s 0 hj]
  rcases lt_or_eq_of_le hij with hlt | heq
  · exact hs.rel_get_of_lt hlt
  · subst heq
    exact le_refl _

/-- `interpolate` on a sorted list lies between the two interpolated
entries. -/
theorem interpolate_bounds (s : List ℚ) (hs : s.Sorted (· ≤ ·)) (h : ℚ)
    (h0 : 0 ≤ h) (hle : h ≤ ((s.length : ℚ) - 1)) (hn : s.length ≠ 0) :
    s.getD (ratFloorNat h) 0 ≤ interpolate s h
      ∧ interpolate s h ≤ s.getD (min (ratFloorNat h + 1) (s.length - 1)) 0 := by
  have hn1 : 1 ≤ s.length := Nat.one_le_iff_ne_zero.mpr hn
  have hcast : ((s.length - 1 : ℕ) : ℚ) = (s.length : ℚ) - 1 := by
    push_cast [Nat.cast_sub hn1]
    ring
  have hi_le : ratFloorNat h ≤ s.length - 1 :=
    ratFloorNat_le_of_le h (s.length - 1) h0 (by rw [hcast]; exact hle)
  have hj_lt : min (ratFloorNat h + 1) (s.length - 1) < s.length := by
    have : min (ratFloorNat h + 1) (s.length - 1) ≤ s.length - 1 := min_le_right _ _
    omega
  have hij : ratFloorNat h ≤ min (ratFloorNat h + 1) (s.length - 1) := by
    exact le_min (by omega) hi_le
  have hlo_hi : s.getD (ratFloorNat h) 0
      ≤ s.getD (min (ratFloorNat h + 1) (s.length - 1)) 0 :=
    sorted_getD_mono s hs hij hj_lt
  have hfrac0 : 0 ≤ h - (ratFloorNat h : ℚ) := by
    have := ratFloorNat_le h h0
    linarith
  have hfrac1 : h - (ratFloorNat h : ℚ) ≤ 1 := by
    have := lt_ratFloorNat_add_one h h0
    linarith
  constructor
  · show s.getD (ratFloorNat h) 0 ≤ _
    rw [interpolate]
    have hmul : 0 ≤ (h - (ratFloorNat h : ℚ))
        * (s.getD (min (ratFloorNat h + 1) (s.length - 1)) 0 - s.getD (ratFloorNat h) 0) :=
      mul_nonneg hfrac0 (by linarith)
    linarith
  · show _ ≤ s.getD (min (ratFloorNat h + 1) (s.length - 1)) 0
    rw [interpolate]
    have hmul : 0 ≤ (1 - (h - (ratFloorNat h : ℚ)))
        * (s.getD (min (ratFloorNat h + 1) (s.length - 1)) 0 - s.getD (ratFloorNat h) 0) :=
      mul_nonneg (by linarith) (by linarith)
    nlinarith [hmul]

/-- For at least four values, the two quartiles exist and are ordered. -/
theorem quartiles_ordered (l : List ℚ) (h4 : 4 ≤ l.length) :
    ∃ a b, quantile l (1/4) = some a ∧ quantile l (3/4) = some b ∧ a ≤ b := by
  have hne : l.length ≠ 0 := by omega
  have hlen : (sortQ l).length = l.length := by
    rw [sortQ, List.length_insertionSort]
  have hs : (sortQ l).Sorted (· ≤ ·) := List.sorted_insertionSort _ l
  have hn4 : (4:ℚ) ≤ (l.length : ℚ) := by exact_mod_cast h4
  set h₁ : ℚ := 1/4 * ((l.length : ℚ) - 1) with hh₁
  set h₂ : ℚ := 3/4 * ((l.length : ℚ) - 1) with hh₂
  have h₁0 : 0 ≤ h₁ := by rw [hh₁]; nlinarith
  have h₂0 : 0 ≤ h₂ := by rw [hh₂]; nlinarith
  have h₁le : h₁ ≤ (sortQ l).length - 1 := by
    rw [hlen, hh₁]; nlinarith
  have h₂le : h₂ ≤ (sortQ l).length - 1 := by
    rw [hlen, hh₂]; nlinarith
  have hsne : (sortQ l).length ≠ 0 := by rw [hlen]; exact hne
  have hplus : h₁ + 1 ≤ h₂ := by rw [hh₁, hh₂]; nlinarith
  have hstep : ratFloorNat h₁ + 1 ≤ ratFloorNat h₂ :=
    ratFloorNat_add_one_le h₁ h₂ h₁0 hplus
  have hB₁ := interpolate_bounds (sortQ l) hs h₁ h₁0 h₁le hsne
  have hB₂ := interpolate_bounds (sortQ l) hs h₂ h₂0 h₂le hsne
  have hi₂lt : ratFloorNat h₂ < (sortQ l).length := by
    have := ratFloorNat_le_of_le h₂ ((sortQ l).length - 1) h₂0 (by
      rw [Nat.cast_sub (Nat.one_le_iff_ne_zero.mpr hsne)]
      exact_mod_cast h₂le)
    omega
  have hmid : (sortQ l).getD (min (ratFloorNat h₁ + 1) ((sortQ l).length - 1)) 0
      ≤ (sortQ l).getD (ratFloorNat h₂) 0 := by
    apply sorted_getD_mono (sortQ l) hs _ hi₂lt
    exact le_trans (min_le_left _ _) hstep
  refine ⟨interpolate (sortQ l) h₁, interpolate (sortQ l) h₂, ?_, ?_, ?_⟩
  · rw [quantile, if_neg hne]
  · rw [quantile, if_neg hne]
  · exact le_trans hB₁.2 (le_trans hmid hB₂.1)

/-! ## Claims -/

/-- Claim C4, corrected.  The Loader's validation fails on a zero-row table
and on a row count below the configured minimum; a row count equal to the
minimum passes validation provided the frame is non-empty (at least one row
and one column) — with `min_rows = 0` a zero-row table equals the minimum
yet still fails the emptiness check. -/
theorem claim_C4_validation (rows cols m : Nat) :
    (rows = 0 → ∃ e, validate_data rows cols m = Except.error e)
    ∧ (rows < m → ∃ e, validate_data rows cols m = Except.error e)
    ∧ (rows = m → 1 ≤ rows → 1 ≤ cols → validate_data rows cols m = Except.ok ()) := by
  refine ⟨?_, ?_, ?_⟩
  · intro h
    subst h
    exact ⟨"Loaded data is empty", by simp [validate_data]⟩
  · intro h
    rw [validate_data]
    by_cases hz : rows = 0 ∨ cols = 0
    · exact ⟨"Loaded data is empty", by rw [if_pos hz]⟩
    · exact ⟨"Data has fewer rows than the minimum required",
        by rw [if_neg hz, if_pos h]⟩
  · intro heq h1 hc
    have hz : ¬ (rows = 0 ∨ cols = 0) := by omega
    have hlt : ¬ rows < m := by omega
    rw [validate_data, if_neg hz, if_neg hlt]

/-- Witness for `claim_C4_validation`: five rows, two columns, minimum five. -/
theorem claim_C4_validation_witness : validate_data 5 2 5 = Except.ok () :=
  (claim_C4_validation 5 2 5).2.2 rfl (by decide) (by decide)

/-- Counterexample to claim C4 as stated: with a configured minimum of 0, a
zero-row, one-column table has row count equal to the minimum, yet the code
fails the emptiness check rather than succeeding. -/
theorem claim_C4_counterexample :
    validate_data 0 1 0 ≠ Except.ok () := by
  simp [validate_data]

/-- Claim C5: for a non-empty table the completeness is
`(total cells − missing cells) / total cells × 100`, and it is exactly 100
whenever no cell is missing. -/
theorem claim_C5_completeness (t : Table) (h : t.totalCells ≠ 0) :
    (assess_data_quality t).completeness
      = some (((t.totalCells : ℚ) - (t.missingCells : ℚ)) / (t.totalCells : ℚ) * 100)
    ∧ (t.missingCells = 0 → (assess_data_quality t).completeness = some 100) := by
  constructor
  · simp [assess_data_quality, h]
  · intro h0
    have hT : (t.totalCells : ℚ) ≠ 0 := Nat.cast_ne_zero.mpr h
    simp [assess_data_quality, h, h0]

/-- Witness for `claim_C5_completeness`: the 2×1 table with no missing
cells has completeness exactly 100. -/
theorem claim_C5_completeness_witness :
    (assess_data_quality exFull).completeness = some 100 :=
  (claim_C5_completeness exFull (by decide)).2 (by decide)

/-- Claim C7: with fewer than two numeric columns, the correlation analysis
returns the empty mapping and the empty strong-correlation list (and, being
a total function, raises nothing). -/
theorem claim_C7_correlation_empty (t : Table) (h : t.numericCols.length < 2) :
    correlation_analysis t = { matrix := [], strong_correlations := [] } := by
  rw [correlation_analysis]
  simp [h]

/-- Witness for `claim_C7_correlation_empty`: a table with one numeric and
one text column. -/
theorem claim_C7_correlation_empty_witness :
    correlation_analysis exOneNum = { matrix := [], strong_correlations := [] } :=
  claim_C7_correlation_empty exOneNum (by decide)

/-- Claim C10: the `MCPClient` constructor always ends not connected
(`_connect` sets the flag to `False` unconditionally), so for every
configuration — including `enabled = true` with a non-empty `server_url` —
and every table, the pipeline's synthesis output has no `ai_insights` entry,
its analysis output has no `ai_analysis` entry, and the recommendations
list is empty. -/
theorem claim_C10_never_connected (cfg : MCPConfig) (t : Table) :
    is_connected (mcpClientInit cfg) = false
    ∧ (pipelineSynth cfg t).ai_insights = none
    ∧ (pipelineAnalysis cfg t).ai_analysis = none
    ∧ (pipelineAnalysis cfg t).recommendations = [] := by
  have hc : is_connected (mcpClientInit cfg) = false := by
    rw [mcpClientInit]
    split
    · rfl
    · rfl
  refine ⟨hc, ?_, ?_, ?_⟩
  · simp [pipelineSynth, synthExecute, realMCP, hc]
  · simp [pipelineAnalysis, analysisExecute, realMCP, hc]
  · simp [pipelineAnalysis, analysisExecute, realMCP, hc]

/-- Claim C3: a collaborator exception during insight generation or
AI analysis is caught and replaced by the empty dict (the stages are total
functions of the collaborator's behaviour, so they never raise because of
it), and with a collaborator that does not report itself connected the
`ai_insights`/`ai_analysis` entries are absent. -/
theorem claim_C3_collaborator_isolated (m : MCP) (t : Table) :
    (m.connected = false →
        (synthExecute (some m) t).ai_insights = none
        ∧ (analysisExecute (some m) (synthExecute (some m) t)).ai_analysis = none)
    ∧ (m.connected = true →
        (∀ e, m.insightsResult = Except.error e →
            (synthExecute (some m) t).ai_insights = some [])
        ∧ (∀ e, m.analyzeResult = Except.error e →
            (analysisExecute (some m) (synthExecute (some m) t)).ai_analysis = some [])) := by
  constructor
  · intro hc
    constructor
    · simp [synthExecute, hc]
    · simp [analysisExecute, hc]
  · intro hc
    constructor
    · intro e he
      simp [synthExecute, hc, generate_ai_insights, he]
    · intro e he
      simp [analysisExecute, hc, ai_powered_analysis, he]

/-- Witness for `claim_C3_collaborator_isolated`: a connected collaborator
whose calls all raise yields the empty dict in both stages. -/
theorem claim_C3_collaborator_isolated_witness :
    (synthExecute (some mcpRaising) exOneNum).ai_insights = some []
    ∧ (analysisExecute (some mcpRaising)
        (synthExecute (some mcpRaising) exOneNum)).ai_analysis = some [] :=
  ⟨((claim_C3_collaborator_isolated mcpRaising exOneNum).2 rfl).1 "boom" rfl,
   ((claim_C3_collaborator_isolated mcpRaising exOneNum).2 rfl).2 "boom" rfl⟩

/-- Counterexample to claim C1 as stated: recommendations are not emitted
independently of the AI collaborator.  On a table whose completeness (10%)
is far below 90%, the pipeline with its default (never connected)
collaborator produces an empty recommendations list, because
`_generate_recommendations` is only invoked behind `is_connected()`. -/
theorem claim_C1_counterexample :
    optLt (pipelineSynth cfgNone exLowComp).data_quality.completeness 90 = true
    ∧ (pipelineAnalysis cfgNone exLowComp).recommendations = [] := by
  constructor
  · with_unfolding_all rfl
  · with_unfolding_all rfl

/-- Claim C1, amended: the recommendation rules themselves are rule-based —
completeness below 90% emits the missing-data recommendation, an outlier
percentage above 5% emits a recommendation naming (up to the first three
of) the offending columns — but they are evaluated only when the
collaborator reports itself connected; otherwise the recommendations list
is left empty. -/
theorem claim_C1_recommendations (m : MCP) (synthesized : SynthResult) :
    ((analysisExecute none synthesized).recommendations = [])
    ∧ (m.connected = false → (analysisExecute (some m) synthesized).recommendations = [])
    ∧ (m.connected = true →
        (analysisExecute (some m) synthesized).recommendations
          = generate_recommendations synthesized.data_quality.completeness
              (detect_outliers synthesized.raw_data)
        ∧ (optLt synthesized.data_quality.completeness 90 = true →
            missingDataRec ∈ (analysisExecute (some m) synthesized).recommendations)
        ∧ ((highOutlierCols (detect_outliers synthesized.raw_data)).isEmpty = false →
            ("Review outliers in: " ++ String.intercalate ", "
                ((highOutlierCols (detect_outliers synthesized.raw_data)).take 3))
              ∈ (analysisExecute (some m) synthesized).recommendations)) := by
  refine ⟨rfl, ?_, ?_⟩
  · intro hc
    simp [analysisExecute, hc]
  · intro hc
    refine ⟨by simp [analysisExecute, hc], ?_, ?_⟩
    · intro hlow
      simp only [analysisExecute, hc, if_true]
      rw [generate_recommendations, if_pos hlow]
      exact List.mem_append_left _ (List.mem_singleton_self _)
    · intro hhigh
      simp only [analysisExecute, hc, if_true]
      rw [generate_recommendations]
      apply List.mem_append_right
      rw [hhigh]
      simp

/-- Witness for `claim_C1_recommendations`: with a connected collaborator
and the low-completeness table, the missing-data recommendation is
emitted. -/
theorem claim_C1_recommendations_witness :
    missingDataRec
      ∈ (analysisExecute (some mcpConnectedOk)
          (synthExecute none exLowComp)).recommendations :=
  (((claim_C1_recommendations mcpConnectedOk (synthExecute none exLowComp)).2.2
      rfl).2.1) (by with_unfolding_all rfl)

/-- Following the spec's words for claim C6: row `i` is an exact duplicate
of an earlier row when some row `j < i` is identical across all columns. -/
def isDupOfEarlier (rs : List (List Val)) (i : Nat) : Bool :=
  (List.range i).any (fun j => decide (rs.getD j [] = rs.getD i []))

/-- Following the spec's words for claim C6: the number of rows that are
exact duplicates of an earlier row. -/
def specDuplicateCount (rs : List (List Val)) : Nat :=
  (List.range rs.length).countP (isDupOfEarlier rs)

/-- The marks of `duplicated` count exactly the rows equal to a member of
`seen` or to an earlier row. -/
theorem duplicatedMarks_countP : ∀ (rs seen : List (List Val)),
    (duplicatedMarks seen rs).countP id
      = (List.range rs.length).countP
          (fun i => seen.any (fun x => decide (x = rs.getD i [])) || isDupOfEarlier rs i)
  | [], _ => by simp [duplicatedMarks]
  | r :: tl, seen => by
    rw [duplicatedMarks, List.countP_cons, List.length_cons, List.range_succ_eq_map,
      List.countP_cons, List.countP_map, duplicatedMarks_countP tl (r :: seen)]
    congr 1
    · apply List.countP_congr
      intro i _
      simp only [Function.comp_apply, List.any_cons, List.getD_cons_succ]
      rw [isDupOfEarlier, isDupOfEarlier, List.range_succ_eq_map, List.any_cons,
        List.any_map]
      simp only [Function.comp_apply, List.getD_cons_succ, List.getD_cons_zero]
      cases h1 : decide (r = tl.getD i []) <;>
        cases h2 : seen.any (fun x => decide (x = tl.getD i [])) <;>
          simp [h1, h2]
    · simp [isDupOfEarlier]

/-- Claim C6: the duplicate-row count reported by the Synthesizer equals
the number of rows that are exact duplicates of an earlier row, and the
spec's example table `[[1,2],[1,2],[3,4]]` yields exactly 1. -/
theorem claim_C6_duplicates :
    (∀ t : Table, (assess_data_quality t).duplicate_rows = specDuplicateCount t.rows)
    ∧ (assess_data_quality exDup).duplicate_rows = 1 := by
  constructor
  · intro t
    show duplicateRowCount t = _
    rw [duplicateRowCount, duplicatedMarks_countP t.rows []]
    apply List.countP_congr
    intro i _
    simp [specDuplicateCount]
  · decide

/-- Counterexample to claim C2 as stated: a numeric column on which the
statistics are undefined is not skipped.  On a table whose first numeric
column has zero non-missing values, the analysis still emits a
`descriptive_stats` entry for that column (with NaN statistics), so the
output names both columns, not only the healthy one. -/
theorem claim_C2_counterexample :
    (statistical_analysis exMissingCol).map Prod.fst ≠ ["good"]
    ∧ (statistical_analysis exMissingCol).map Prod.fst = ["empty_col", "good"] := by
  constructor
  · with_unfolding_all decide
  · with_unfolding_all rfl

/-- Claim C2, amended: a statistical computation that is undefined on a
single numeric column does not abort the analysis, but the column is
included (with NaN statistics), not skipped: every numeric column
contributes exactly one entry to the descriptive statistics and to the
outlier detection, and on a column with zero non-missing values every
statistic is NaN while the analysis still returns a result. -/
theorem claim_C2_no_abort (t : Table) :
    (statistical_analysis t).map Prod.fst = t.numericCols.map Column.name
    ∧ (detect_outliers t).map Prod.fst = t.numericCols.map Column.name
    ∧ descStatsOf [] =
        { count := 0, mean := none, median := none, mode := none,
          stdSq := none, variance := none, skewSgnSq := none,
          kurtosis := none, q1 := none, q2 := none, q3 := none } := by
  refine ⟨?_, ?_, by with_unfolding_all rfl⟩
  · rw [statistical_analysis, List.map_map]
    rfl
  · rw [detect_outliers, List.map_map]
    rfl

/-- The direction/strength labels of the source, classified by the sign of
the slope and the thresholds on `r²`. -/
theorem classify_labels (slope rsq : ℚ) (dir strength : String)
    (hdir : dir = if 0 < slope then "increasing" else "decreasing")
    (hstr : strength = if 49/100 < rsq then "strong"
      else if 16/100 < rsq then "moderate" else "weak") :
    (dir = "increasing" ↔ 0 < slope)
    ∧ (dir = "decreasing" ↔ ¬ 0 < slope)
    ∧ (strength = "strong" ↔ 49/100 < rsq)
    ∧ (strength = "moderate" ↔ (16/100 < rsq ∧ rsq ≤ 49/100))
    ∧ (strength = "weak" ↔ rsq ≤ 16/100) := by
  subst hdir
  subst hstr
  refine ⟨?_, ?_, ?_, ?_, ?_⟩ <;> split_ifs <;> simp_all <;> try linarith

/-- Every entry built by `mkTrendEntry` classifies direction by the sign of
its slope and strength by its `r²` against the (squared) thresholds. -/
theorem mkTrendEntry_classification (name : String) (ys : List ℚ) :
    ((mkTrendEntry name ys).direction = "increasing" ↔ 0 < (mkTrendEntry name ys).slope)
    ∧ ((mkTrendEntry name ys).direction = "decreasing" ↔ ¬ 0 < (mkTrendEntry name ys).slope)
    ∧ ((mkTrendEntry name ys).strength = "strong" ↔ 49/100 < (mkTrendEntry name ys).rSquared)
    ∧ ((mkTrendEntry name ys).strength = "moderate" ↔
        (16/100 < (mkTrendEntry name ys).rSquared
          ∧ (mkTrendEntry name ys).rSquared ≤ 49/100))
    ∧ ((mkTrendEntry name ys).strength = "weak" ↔
        (mkTrendEntry name ys).rSquared ≤ 16/100) :=
  classify_labels (mkTrendEntry name ys).slope (mkTrendEntry name ys).rSquared
    (mkTrendEntry name ys).direction (mkTrendEntry name ys).strength rfl rfl

/-- Claim C8: every trend entry reports direction `increasing` exactly when
its slope is positive (else `decreasing`), and strength `strong` when
`|r| > 0.7` (that is, `r² > 0.49`), `moderate` when `0.4 < |r| ≤ 0.7`
(that is, `0.16 < r² ≤ 0.49`), and `weak` otherwise. -/
theorem claim_C8_trend_classification (t : Table) (e : TrendEntry)
    (he : e ∈ trend_analysis t) :
    (e.direction = "increasing" ↔ 0 < e.slope)
    ∧ (e.direction = "decreasing" ↔ ¬ 0 < e.slope)
    ∧ (e.strength = "strong" ↔ 49/100 < e.rSquared)
    ∧ (e.strength = "moderate" ↔ (16/100 < e.rSquared ∧ e.rSquared ≤ 49/100))
    ∧ (e.strength = "weak" ↔ e.rSquared ≤ 16/100) := by
  rw [trend_analysis] at he
  by_cases hg : 0 < t.datetimeCols.length ∧ 0 < t.numericCols.length
  · rw [if_pos hg] at he
    rcases List.mem_filterMap.mp he with ⟨c, _, hc⟩
    set dc := t.datetimeCols.headD ⟨"", ColType.datetime, []⟩
    set values :=
      ((sortedRowIdx dc t.nrows).map (fun i => c.cells.getD i Val.missing)).filterMap cellNum
    by_cases hlen : 1 < values.length
    · rw [if_pos hlen] at hc
      cases hc
      exact mkTrendEntry_classification c.name values
    · rw [if_neg hlen] at hc
      cases hc
  · rw [if_neg hg] at he
    simp at he

/-- Witness for `claim_C8_trend_classification`: the strictly increasing
series `[1,2,3]` against sequential dates is classified `increasing`. -/
theorem claim_C8_trend_classification_witness : trendEx.direction = "increasing" :=
  (claim_C8_trend_classification exTrend trendEx
      (by with_unfolding_all decide)).1.mpr
    (by with_unfolding_all decide)

/-- Claim C9: for every numeric column with at least four non-missing
values, the outlier entry the Analyzer computes for it satisfies
`lower = Q1 − 1.5·IQR ≤ Q1 ≤ Q3 ≤ upper = Q3 + 1.5·IQR`. -/
theorem claim_C9_outlier_bounds (t : Table) (c : Column)
    (hc : c ∈ t.numericCols) (h4 : 4 ≤ c.nums.length) :
    (c.name, detectOutliersCol c) ∈ detect_outliers t
    ∧ ∃ q1 q3, quantile c.nums (1/4) = some q1 ∧ quantile c.nums (3/4) = some q3
        ∧ (detectOutliersCol c).lower = some (q1 - 3/2 * (q3 - q1))
        ∧ (detectOutliersCol c).upper = some (q3 + 3/2 * (q3 - q1))
        ∧ q1 - 3/2 * (q3 - q1) ≤ q1 ∧ q1 ≤ q3 ∧ q3 ≤ q3 + 3/2 * (q3 - q1) := by
  obtain ⟨a, b, ha, hb, hab⟩ := quartiles_ordered c.nums h4
  refine ⟨List.mem_map.mpr ⟨c, hc, rfl⟩, a, b, ha, hb, ?_, ?_, ?_, hab, ?_⟩
  · rw [detectOutliersCol, ha, hb]
  · rw [detectOutliersCol, ha, hb]
  · linarith
  · linarith

/-- Witness for `claim_C9_outlier_bounds`: the column `[1,2,3,4]`. -/
theorem claim_C9_outlier_bounds_witness :
    (exC9.name, detectOutliersCol exC9) ∈ detect_outliers exT9
    ∧ ∃ q1 q3, quantile exC9.nums (1/4) = some q1 ∧ quantile exC9.nums (3/4) = some q3
        ∧ (detectOutliersCol exC9).lower = some (q1 - 3/2 * (q3 - q1))
        ∧ (detectOutliersCol exC9).upper = some (q3 + 3/2 * (q3 - q1))
        ∧ q1 - 3/2 * (q3 - q1) ≤ q1 ∧ q1 ≤ q3 ∧ q3 ≤ q3 + 3/2 * (q3 - q1) :=
  claim_C9_outlier_bounds exT9 exC9 (by decide) (by decide)

end ReportAnalysis
